import Mathlib

/-
Verification development for the stock-analysis pipeline of this repository.

The definitions below are shallow embeddings of the Python source:

- src/agents/investment_advisor.py   (cache files, provider chain, float
  sanitizer, symbol resolver, batch analysis)
- src/api/agents/investment_advisor.py   (in-memory cache, symbol resolver,
  float sanitizer, stock scoring, potential-stock screening, batch analysis)
- src/agents/market_analyzer.py   (recursive data sanitizer, stock screening
  with the 60-point cutoff)

Python strings are modelled as lists of characters; the ASCII fragment of the
string methods upper, lower, strip, isalpha and isupper is modelled through
explicit case tables. Python floats are modelled as exact rationals together
with explicit nan and infinity markers where the code branches on them.
-/

/- ---------------------------------------------------------------------- -/
/- Python string primitives (ASCII fragment), used by _convert_to_symbol. -/
/- ---------------------------------------------------------------------- -/

/-- Python str.upper on a single ASCII character: the 26 lower-to-upper pairs. -/
def upPairs : List (Char × Char) :=
  [('a', 'A'), ('b', 'B'), ('c', 'C'), ('d', 'D'), ('e', 'E'), ('f', 'F'),
   ('g', 'G'), ('h', 'H'), ('i', 'I'), ('j', 'J'), ('k', 'K'), ('l', 'L'),
   ('m', 'M'), ('n', 'N'), ('o', 'O'), ('p', 'P'), ('q', 'Q'), ('r', 'R'),
   ('s', 'S'), ('t', 'T'), ('u', 'U'), ('v', 'V'), ('w', 'W'), ('x', 'X'),
   ('y', 'Y'), ('z', 'Z')]

/-- Python str.lower on a single ASCII character: the 26 upper-to-lower pairs. -/
def downPairs : List (Char × Char) :=
  [('A', 'a'), ('B', 'b'), ('C', 'c'), ('D', 'd'), ('E', 'e'), ('F', 'f'),
   ('G', 'g'), ('H', 'h'), ('I', 'i'), ('J', 'j'), ('K', 'k'), ('L', 'l'),
   ('M', 'm'), ('N', 'n'), ('O', 'o'), ('P', 'p'), ('Q', 'q'), ('R', 'r'),
   ('S', 's'), ('T', 't'), ('U', 'u'), ('V', 'v'), ('W', 'w'), ('X', 'x'),
   ('Y', 'y'), ('Z', 'z')]

def py_char_upper (c : Char) : Char :=
  match upPairs.find? (fun p => p.1 == c) with
  | some p => p.2
  | none => c

def py_char_lower (c : Char) : Char :=
  match downPairs.find? (fun p => p.1 == c) with
  | some p => p.2
  | none => c

def py_is_lower_char (c : Char) : Bool := upPairs.any (fun p => p.1 == c)

def py_is_upper_char (c : Char) : Bool := downPairs.any (fun p => p.1 == c)

def py_is_alpha_char (c : Char) : Bool := py_is_lower_char c || py_is_upper_char c

/-- Python default whitespace characters stripped by str.strip. -/
def py_is_space_char (c : Char) : Bool :=
  c == ' ' || c == '\t' || c == '\n' || c == '\r' || c == '\x0b' || c == '\x0c'

/-- A Python string, modelled as its list of characters. -/
abbrev PyStr := List Char

def py_upper (s : PyStr) : PyStr := s.map py_char_upper

def py_lower (s : PyStr) : PyStr := s.map py_char_lower

/-- Python str.strip with no argument: drop leading and trailing whitespace. -/
def py_strip (s : PyStr) : PyStr :=
  ((s.dropWhile py_is_space_char).reverse.dropWhile py_is_space_char).reverse

/-- Python str.isalpha: nonempty and every character alphabetic. -/
def py_isalpha (s : PyStr) : Bool := !s.isEmpty && s.all py_is_alpha_char

/-- Python str.isupper: at least one cased character and no lowercase one. -/
def py_isupper (s : PyStr) : Bool :=
  s.any py_is_alpha_char && s.all (fun c => !py_is_lower_char c)

/-- Dictionary lookup, first matching key; mirrors Python dict access. -/
def table_lookup (t : List (PyStr × PyStr)) (k : PyStr) : Option PyStr :=
  (t.find? (fun p => p.1 == k)).map (fun p => p.2)

/- ---------------------------------------------------------------------- -/
/- Symbol resolvers.                                                      -/
/- src/api/agents/investment_advisor.py lines 40-99 (_convert_to_symbol)  -/
/- src/agents/investment_advisor.py lines 649-673 (_convert_to_symbol)    -/
/- ---------------------------------------------------------------------- -/

/-- Company-name alias table of the api resolver, lines 47-74. -/
def api_alias_table : List (PyStr × PyStr) :=
  [("APPLE".data, "AAPL".data), ("TESLA".data, "TSLA".data),
   ("MICROSOFT".data, "MSFT".data), ("GOOGLE".data, "GOOGL".data),
   ("ALPHABET".data, "GOOGL".data), ("AMAZON".data, "AMZN".data),
   ("META".data, "META".data), ("FACEBOOK".data, "META".data),
   ("NETFLIX".data, "NFLX".data), ("NVIDIA".data, "NVDA".data),
   ("AMD".data, "AMD".data), ("INTEL".data, "INTC".data),
   ("IBM".data, "IBM".data), ("COCA COLA".data, "KO".data),
   ("COCA-COLA".data, "KO".data), ("NIKE".data, "NKE".data),
   ("DISNEY".data, "DIS".data), ("WALMART".data, "WMT".data),
   ("JPMORGAN".data, "JPM".data), ("JP MORGAN".data, "JPM".data),
   ("GOLDMAN SACHS".data, "GS".data), ("BOEING".data, "BA".data),
   ("MCDONALDS".data, "MCD".data), ("MCDONALD\x27S".data, "MCD".data),
   ("VISA".data, "V".data), ("MASTERCARD".data, "MA".data)]

/-- Corporate suffixes removed by the api resolver, line 86. -/
def common_corp_suffixes : List PyStr :=
  [" INC".data, " CORP".data, " CORPORATION".data, " CO".data, " COMPANY".data,
   " LTD".data, " LIMITED".data, " GROUP".data, " HOLDINGS".data,
   " TECHNOLOGIES".data]

/-- Normalization prefix of the api resolver, line 44: query.upper().strip(). -/
def norm_query (s : PyStr) : PyStr := py_strip (py_upper s)

/-- Remove the first matching corporate suffix, then stop (the Python loop
breaks after the first hit), lines 86-91. -/
def strip_corp_suffix : List PyStr → PyStr → PyStr
  | [], q => q
  | suf :: rest, q =>
    if suf.isSuffixOf q then q.take (q.length - suf.length)
    else strip_corp_suffix rest q

/-- Body of the api _convert_to_symbol after the upper-strip normalization,
lines 76-99: ticker-shape check, direct alias match, suffix-stripped alias
match, fall back to the normalized query. -/
def convert_api_core (q : PyStr) : PyStr :=
  if q.length ≤ 5 ∧ py_isalpha q = true then q
  else
    match table_lookup api_alias_table q with
    | some v => v
    | none =>
      match table_lookup api_alias_table (strip_corp_suffix common_corp_suffixes q) with
      | some v => v
      | none => q

/-- The api _convert_to_symbol, lines 40-99: uppercase and strip, then the
core dispatch. -/
def convert_to_symbol_api (query : PyStr) : PyStr :=
  convert_api_core (norm_query query)

/-- Company-name alias table of the agents resolver, lines 652-661
(lowercase keys). -/
def agents_alias_table : List (PyStr × PyStr) :=
  [("tesla".data, "TSLA".data), ("apple".data, "AAPL".data),
   ("microsoft".data, "MSFT".data), ("google".data, "GOOGL".data),
   ("amazon".data, "AMZN".data), ("meta".data, "META".data),
   ("netflix".data, "NFLX".data), ("nvidia".data, "NVDA".data)]

/-- Body of the agents _convert_to_symbol after lowercasing, lines 663-673:
the isupper-and-short check (applied to the already lowercased string), then
the alias table, then uppercase fallback. -/
def convert_agents_core (c : PyStr) : PyStr :=
  if py_isupper c = true ∧ c.length ≤ 5 then c
  else
    match table_lookup agents_alias_table c with
    | some v => v
    | none => py_upper c

/-- The agents _convert_to_symbol, lines 649-673: lowercase first, then the
core dispatch. -/
def convert_to_symbol_agents (company : PyStr) : PyStr :=
  convert_agents_core (py_lower company)


/- ---------------------------------------------------------------------- -/
/- Float sanitizers.                                                      -/
/- src/agents/investment_advisor.py lines 290-302 (_sanitize_float)       -/
/- src/api/agents/investment_advisor.py lines 101-111 (_sanitize_float)   -/
/- ---------------------------------------------------------------------- -/

/-- A Python float value: nan, positive or negative infinity, or a finite
value modelled as an exact rational. -/
inductive PyFloat where
  | nan : PyFloat
  | inf : PyFloat
  | ninf : PyFloat
  | num : ℚ → PyFloat

/-- An arbitrary value reaching _sanitize_float: None, a float-like number,
or a value that is not coercible to float (np.isnan and np.isinf raise a
TypeError on it, caught by the except clause). -/
inductive PyVal where
  | pynone : PyVal
  | flt : PyFloat → PyVal
  | nonNumeric : PyVal

/-- The JSON magnitude bound checked by both sanitizers (abs(value) > 1e308). -/
def json_float_bound : ℚ := 10 ^ 308

/-- The agents _sanitize_float, lines 290-302: None, nan and infinities map
to 0.0, values above the JSON bound map to 0.0, finite in-range values are
returned as floats, and the bare except turns every failure into 0.0. -/
def sanitize_float_agents : PyVal → ℚ
  | .pynone => 0
  | .flt .nan => 0
  | .flt .inf => 0
  | .flt .ninf => 0
  | .flt (.num q) => if json_float_bound < |q| then 0 else q
  | .nonNumeric => 0

/-- The api _sanitize_float, lines 101-111: pd.isna covers None and nan,
np.isinf covers the infinities, the magnitude check runs after float
coercion, and TypeError and ValueError map to 0.0. -/
def sanitize_float_api : PyVal → ℚ
  | .pynone => 0
  | .flt .nan => 0
  | .flt .inf => 0
  | .flt .ninf => 0
  | .flt (.num q) => if json_float_bound < |q| then 0 else q
  | .nonNumeric => 0

/- ---------------------------------------------------------------------- -/
/- Recursive data sanitizer.                                              -/
/- src/agents/market_analyzer.py lines 149-159 (_sanitize_data)           -/
/- ---------------------------------------------------------------------- -/

mutual
/-- A JSON-like Python object: dict, list, float, int, str, bool or None. -/
inductive PyData where
  | dict : PyEntries → PyData
  | lst : PyItems → PyData
  | flt : PyFloat → PyData
  | intg : ℤ → PyData
  | strv : String → PyData
  | boolv : Bool → PyData
  | pynone : PyData
/-- The ordered key-value entries of a Python dict. -/
inductive PyEntries where
  | nil : PyEntries
  | cons : String → PyData → PyEntries → PyEntries
/-- The ordered elements of a Python list. -/
inductive PyItems where
  | nil : PyItems
  | cons : PyData → PyItems → PyItems
end

mutual
/-- The market analyzer _sanitize_data, lines 149-159: recurse through dicts
and lists, replace nan and infinite floats by 0.0, keep finite floats, and
return every non-float leaf unchanged. -/
def sanitize_data : PyData → PyData
  | .dict es => .dict (sanitize_entries es)
  | .lst xs => .lst (sanitize_items xs)
  | .flt .nan => .flt (.num 0)
  | .flt .inf => .flt (.num 0)
  | .flt .ninf => .flt (.num 0)
  | .flt (.num q) => .flt (.num q)
  | .intg n => .intg n
  | .strv s => .strv s
  | .boolv b => .boolv b
  | .pynone => .pynone
/-- Dict-comprehension part of _sanitize_data: same keys, recursed values. -/
def sanitize_entries : PyEntries → PyEntries
  | .nil => .nil
  | .cons k v es => .cons k (sanitize_data v) (sanitize_entries es)
/-- List-comprehension part of _sanitize_data: recursed elements in order. -/
def sanitize_items : PyItems → PyItems
  | .nil => .nil
  | .cons x xs => .cons (sanitize_data x) (sanitize_items xs)
end

mutual
/-- Observation erasing every float value (floats read as 0.0): two objects
with the same mask agree on all structure and all non-float content. -/
def mask_floats : PyData → PyData
  | .dict es => .dict (mask_entries es)
  | .lst xs => .lst (mask_items xs)
  | .flt _ => .flt (.num 0)
  | .intg n => .intg n
  | .strv s => .strv s
  | .boolv b => .boolv b
  | .pynone => .pynone
/-- mask_floats on dict entries. -/
def mask_entries : PyEntries → PyEntries
  | .nil => .nil
  | .cons k v es => .cons k (mask_floats v) (mask_entries es)
/-- mask_floats on list elements. -/
def mask_items : PyItems → PyItems
  | .nil => .nil
  | .cons x xs => .cons (mask_floats x) (mask_items xs)
end

/-- The ordered key list of a dict. -/
def dict_keys : PyEntries → List String
  | .nil => []
  | .cons k _ es => k :: dict_keys es

/-- The length of a list object. -/
def items_length : PyItems → ℕ
  | .nil => 0
  | .cons _ xs => items_length xs + 1

/- ---------------------------------------------------------------------- -/
/- Cache stores.                                                          -/
/- src/api/agents/investment_advisor.py lines 27-38                       -/
/-   (_get_cached_data and _cache_data, timeout = 5 minutes)              -/
/- src/agents/investment_advisor.py lines 51-75                           -/
/-   (_load_from_cache and _save_to_cache, age bound 600 seconds)         -/
/- ---------------------------------------------------------------------- -/

/-- A keyed store of payloads with their fetch timestamps (seconds as exact
rationals): the in-memory dict of the api advisor, or the cache directory of
the agents advisor (key = symbol, timestamp = file mtime). -/
abbrev CacheStore (α : Type) := List (String × α × ℚ)

/-- Lookup of the entry stored under a key. -/
def store_lookup {α : Type} (store : CacheStore α) (sym : String) : Option (α × ℚ) :=
  (store.find? (fun e => e.1 == sym)).map (fun e => e.2)

/-- Removal of a key, as done by del on a dict. -/
def remove_key {α : Type} (store : CacheStore α) (sym : String) : CacheStore α :=
  store.filter (fun e => !(e.1 == sym))

/-- The api _cache_data, lines 36-38: overwrite the entry of the symbol with
the payload and the current time. -/
def cache_data {α : Type} (store : CacheStore α) (sym : String) (d : α) (now : ℚ) :
    CacheStore α :=
  (sym, d, now) :: remove_key store sym

/-- The api _get_cached_data, lines 27-34: return the payload while the entry
is younger than the 5-minute timeout, otherwise delete the entry and return
nothing. Result: returned payload, store after the lookup. -/
def get_cached_data {α : Type} (store : CacheStore α) (sym : String) (now : ℚ) :
    Option α × CacheStore α :=
  match store_lookup store sym with
  | some (d, ts) =>
    if now - ts < 300 then (some d, store) else (none, remove_key store sym)
  | none => (none, store)

/-- The agents _save_to_cache, lines 67-75: write the pickle file of the
symbol (overwriting any previous one). -/
def save_to_cache {α : Type} (store : CacheStore α) (sym : String) (d : α) (now : ℚ) :
    CacheStore α :=
  (sym, d, now) :: remove_key store sym

/-- The agents _load_from_cache, lines 51-65: return the pickled payload
while the file is younger than 600 seconds, otherwise return None. The stale
file is not deleted. Result: returned payload, store after the lookup. -/
def load_from_cache {α : Type} (store : CacheStore α) (sym : String) (now : ℚ) :
    Option α × CacheStore α :=
  match store_lookup store sym with
  | some (d, mtime) =>
    if now - mtime < 600 then (some d, store) else (none, store)
  | none => (none, store)

/-- Concrete store holding one entry fetched at time 0. -/
def stale_store : CacheStore ℚ := [("AAPL", 42, 0)]

/- ---------------------------------------------------------------------- -/
/- Provider chain.                                                        -/
/- src/agents/investment_advisor.py lines 77-288 (_fetch_stock_data)      -/
/- ---------------------------------------------------------------------- -/

/-- How many calls _fetch_stock_data has made to each of its four data
sources: yfinance, the Yahoo backup chart endpoint, Alpha Vantage, Finnhub. -/
structure ProviderCalls where
  yahoo : ℕ
  backup : ℕ
  alphaVantage : ℕ
  finnhub : ℕ
  deriving DecidableEq

def no_calls : ProviderCalls := ⟨0, 0, 0, 0⟩

/-- One iteration of the outer retry loop of _fetch_stock_data (lines
84-286): each provider is tried once, in the fixed order, and the first
success returns. A provider is an oracle from its call index to an optional
payload; none models an exception or empty data, both of which make the code
fall through to the next provider within the same attempt. -/
def try_providers_once {α : Type} (p1 p2 p3 p4 : ℕ → Option α)
    (k : ProviderCalls) : Option α × ProviderCalls :=
  match p1 k.yahoo with
  | some v => (some v, ⟨k.yahoo + 1, k.backup, k.alphaVantage, k.finnhub⟩)
  | none =>
    match p2 k.backup with
    | some v => (some v, ⟨k.yahoo + 1, k.backup + 1, k.alphaVantage, k.finnhub⟩)
    | none =>
      match p3 k.alphaVantage with
      | some v =>
        (some v, ⟨k.yahoo + 1, k.backup + 1, k.alphaVantage + 1, k.finnhub⟩)
      | none =>
        match p4 k.finnhub with
        | some v =>
          (some v, ⟨k.yahoo + 1, k.backup + 1, k.alphaVantage + 1, k.finnhub + 1⟩)
        | none =>
          (none, ⟨k.yahoo + 1, k.backup + 1, k.alphaVantage + 1, k.finnhub + 1⟩)

/-- The outer for-attempt loop of _fetch_stock_data: up to max_retries
iterations, each trying all four providers once. -/
def fetch_attempt_loop {α : Type} (p1 p2 p3 p4 : ℕ → Option α) :
    ℕ → ProviderCalls → Option α × ProviderCalls
  | 0, k => (none, k)
  | n + 1, k =>
    match try_providers_once p1 p2 p3 p4 k with
    | (some v, k2) => (some v, k2)
    | (none, k2) => fetch_attempt_loop p1 p2 p3 p4 n k2

/-- The agents _fetch_stock_data, lines 77-288: cached data short-circuits,
otherwise the attempt loop runs; exhausting every attempt raises ValueError,
modelled as none. -/
def fetch_stock_data {α : Type} (cached : Option α) (maxRetries : ℕ)
    (p1 p2 p3 p4 : ℕ → Option α) : Option α × ProviderCalls :=
  match cached with
  | some v => (some v, no_calls)
  | none => fetch_attempt_loop p1 p2 p3 p4 maxRetries no_calls

/-- Modelled from the spec, for comparison with fetch_stock_data: retry ONE
provider up to maxRetries times; returns the payload and the call count. -/
def retry_provider_spec {α : Type} (p : ℕ → Option α) :
    ℕ → ℕ → Option α × ℕ
  | 0, calls => (none, calls)
  | n + 1, calls =>
    match p calls with
    | some v => (some v, calls + 1)
    | none => retry_provider_spec p n (calls + 1)

/-- Modelled from the spec, for comparison with fetch_stock_data: the
provider-major order described in section 4.3, exhausting the retries of each
provider before moving to the next one. -/
def fetch_provider_major_spec {α : Type} (maxRetries : ℕ)
    (p1 p2 p3 p4 : ℕ → Option α) : Option α × ProviderCalls :=
  match retry_provider_spec p1 maxRetries 0 with
  | (some v, c1) => (some v, ⟨c1, 0, 0, 0⟩)
  | (none, c1) =>
    match retry_provider_spec p2 maxRetries 0 with
    | (some v, c2) => (some v, ⟨c1, c2, 0, 0⟩)
    | (none, c2) =>
      match retry_provider_spec p3 maxRetries 0 with
      | (some v, c3) => (some v, ⟨c1, c2, c3, 0⟩)
      | (none, c3) =>
        match retry_provider_spec p4 maxRetries 0 with
        | (some v, c4) => (some v, ⟨c1, c2, c3, c4⟩)
        | (none, c4) => (none, ⟨c1, c2, c3, c4⟩)

/-- A provider that fails on every call. -/
def always_fail : ℕ → Option ℕ := fun _ => none

/-- A provider that succeeds on every call with value 42. -/
def succeed_always : ℕ → Option ℕ := fun _ => some 42

/- ---------------------------------------------------------------------- -/
/- Scoring.                                                               -/
/- src/api/agents/investment_advisor.py lines 1617-1654                   -/
/-   (_calculate_stock_score)                                             -/
/- src/agents/market_analyzer.py lines 675-709 (scoring block of          -/
/-   _screen_potential_stocks)                                            -/
/- ---------------------------------------------------------------------- -/

/-- Momentum part of _calculate_stock_score, lines 1622-1624. -/
def momentum_score_api (momentum : ℚ) : ℚ :=
  if 0 < momentum then min momentum 10 * 3 else 0

/-- RSI part of _calculate_stock_score, lines 1626-1632. -/
def rsi_score_api (rsi : ℚ) : ℚ :=
  if 40 ≤ rsi ∧ rsi ≤ 60 then 20
  else if (30 ≤ rsi ∧ rsi < 40) ∨ (60 < rsi ∧ rsi ≤ 70) then 15
  else if (20 ≤ rsi ∧ rsi < 30) ∨ (70 < rsi ∧ rsi ≤ 80) then 10
  else 0

/-- Trailing-PE part of _calculate_stock_score, lines 1635-1641. -/
def pe_score_api (pe : ℚ) : ℚ :=
  if 0 < pe ∧ pe ≤ 30 then 25
  else if 30 < pe ∧ pe ≤ 50 then 15
  else 0

/-- Profit-margin part of _calculate_stock_score, lines 1643-1648. -/
def margin_score_api (m : ℚ) : ℚ :=
  if 0.2 < m then 25
  else if 0.1 ≤ m ∧ m ≤ 0.2 then 15
  else if 0 < m ∧ m < 0.1 then 10
  else 0

/-- The api _calculate_stock_score, lines 1617-1654: sum of the four parts,
capped at 100; the except clause returns 0. -/
def calculate_stock_score (momentum rsi pe margin : ℚ) : ℚ :=
  min (momentum_score_api momentum + rsi_score_api rsi + pe_score_api pe
       + margin_score_api margin) 100

/-- RSI part of the market analyzer scoring block, lines 678-684. -/
def rsi_score_ma (rsi : ℚ) : ℚ :=
  if 40 ≤ rsi ∧ rsi ≤ 60 then 20
  else if (30 ≤ rsi ∧ rsi < 40) ∨ (60 < rsi ∧ rsi ≤ 70) then 15
  else if rsi < 30 then 10
  else 0

/-- MACD part of the market analyzer scoring block, lines 686-688. -/
def macd_score_ma (macd : ℚ) : ℚ := if 0 < macd then 20 else 0

/-- Moving-average part of the market analyzer scoring block, lines 690-694
(close above sma20 above sma50 scores 20, close above sma20 alone scores 10). -/
def sma_score_ma (lastClose sma20 sma50 : ℚ) : ℚ :=
  if sma20 < lastClose ∧ sma50 < sma20 then 20
  else if sma20 < lastClose then 10
  else 0

/-- Momentum part of the market analyzer scoring block, lines 696-700. -/
def momentum_score_ma (m : ℚ) : ℚ :=
  if 0 < m then 20 else if -5 < m then 10 else 0

/-- Fundamental part of the market analyzer scoring block, lines 702-706. -/
def fundamental_score_ma (pe margin : ℚ) : ℚ :=
  (if 0 < pe ∧ pe < 30 then 10 else 0) + (if 10 < margin then 10 else 0)

/-- The indicator and fundamental numbers one screened symbol feeds into the
market analyzer scoring block (computed from the fetched history and info in
lines 659-673; abstracted here as the per-symbol input). -/
structure ScreenInput where
  rsi : ℚ
  macd : ℚ
  lastClose : ℚ
  sma20 : ℚ
  sma50 : ℚ
  momentum : ℚ
  forwardPE : ℚ
  profitMargins : ℚ

/-- Lines 671-673: profit_margin is multiplied by 100 when truthy. -/
def adjusted_margin (pm : ℚ) : ℚ := if pm ≠ 0 then pm * 100 else pm

/-- The full market analyzer score of one symbol, lines 675-706. -/
def screen_stock_score (s : ScreenInput) : ℚ :=
  rsi_score_ma s.rsi + macd_score_ma s.macd
  + sma_score_ma s.lastClose s.sma20 s.sma50
  + momentum_score_ma s.momentum
  + fundamental_score_ma s.forwardPE (adjusted_margin s.profitMargins)

/- ---------------------------------------------------------------------- -/
/- Screeners.                                                             -/
/- src/agents/market_analyzer.py lines 637-739 (_screen_potential_stocks) -/
/- src/api/agents/investment_advisor.py lines 1576-1615                   -/
/-   (_find_potential_stocks)                                             -/
/- ---------------------------------------------------------------------- -/

/-- One entry of the ranked screener output: symbol and total score. -/
structure ScoredStock where
  symbol : String
  score : ℚ
  deriving DecidableEq

/-- One step of the descending stable sort performed by
list.sort(key=score, reverse=True): insert before the first entry whose
score is less than or equal (equal keys keep their original order). -/
def insert_desc (x : ScoredStock) : List ScoredStock → List ScoredStock
  | [] => [x]
  | y :: ys => if y.score ≤ x.score then x :: y :: ys else y :: insert_desc x ys

/-- Stable sort by descending score. -/
def sort_by_score_desc (l : List ScoredStock) : List ScoredStock :=
  l.foldr insert_desc []

/-- The market analyzer _screen_potential_stocks, lines 637-739: per symbol,
fetch data (the retry loop ends in success, empty data or exhaustion; the
oracle returns none in the failure cases), score it, keep it only when the
score is at least 60 (line 709), then sort descending and keep the first 10. -/
def screen_potential_stocks (candidates : List String)
    (fetch : String → Option ScreenInput) : List ScoredStock :=
  (sort_by_score_desc (candidates.filterMap (fun sym =>
    match fetch sym with
    | none => none
    | some s =>
      let sc := screen_stock_score s
      if 60 ≤ sc then some ⟨sym, sc⟩ else none))).take 10

/-- The fixed universe of the api _find_potential_stocks, line 1582. -/
def tech_stocks : List String := ["AAPL", "MSFT", "GOOGL", "NVDA", "AMD"]

/-- The momentum, RSI and info numbers one symbol feeds into
_calculate_stock_score (computed from the fetched history in lines
1584-1605; abstracted here as the per-symbol input). -/
structure ApiStockInput where
  momentum : ℚ
  rsi : ℚ
  trailingPE : ℚ
  profitMargins : ℚ

/-- The api _find_potential_stocks, lines 1576-1615: every fetched symbol is
scored and kept (no cutoff), then the list is sorted descending and truncated
to 10. -/
def find_potential_stocks (fetch : String → Option ApiStockInput) :
    List ScoredStock :=
  (sort_by_score_desc (tech_stocks.filterMap (fun sym =>
    (fetch sym).map (fun s =>
      ⟨sym, calculate_stock_score s.momentum s.rsi s.trailingPE s.profitMargins⟩)))).take 10

/-- A fetch oracle on which only AAPL yields data, scoring 45 (momentum 0,
RSI 45, trailing PE 25, zero margin). -/
def low_score_fetch : String → Option ApiStockInput :=
  fun sym => if sym = "AAPL" then some ⟨0, 45, 25, 0⟩ else none

/-- A fetch oracle on which every symbol yields data that scores 90 in the
market analyzer scoring block (RSI 50, positive MACD, close above sma20
above sma50, positive momentum, forward PE 10, zero margin). -/
def high_score_fetch : String → Option ScreenInput :=
  fun _ => some ⟨50, 1, 10, 5, 2, 5, 10, 0⟩

/- ---------------------------------------------------------------------- -/
/- Batch analysis.                                                        -/
/- src/api/agents/investment_advisor.py lines 610-719 (analyze_investment) -/
/- src/agents/investment_advisor.py lines 503-584 (analyze_investment)    -/
/- ---------------------------------------------------------------------- -/

/-- The api analyze_investment, lines 610-719: convert every query, raise if
no symbol remains, process each converted symbol with per-symbol failures
skipped (the per-symbol oracle f returns none on any failure), and raise if
the fundamentals dict stays empty. The result collects the per-symbol
fundamentals. -/
def analyze_investment_api {α : Type} (symbols : List PyStr)
    (f : PyStr → Option α) : Except String (List (PyStr × α)) :=
  let processed := symbols.map convert_to_symbol_api
  if processed.isEmpty then Except.error "no valid symbols"
  else
    let successes := processed.filterMap (fun s => (f s).map (fun v => (s, v)))
    if successes.isEmpty then Except.error "no data for any symbol"
    else Except.ok successes

/-- The agents analyze_investment, lines 503-584: each symbol is processed
inside a try-except-continue, and the accumulated result is returned
unconditionally; there is no emptiness check, so the function never raises
when symbols fail. -/
def analyze_investment_agents {α : Type} (symbols : List PyStr)
    (f : PyStr → Option α) : Except String (List (PyStr × α)) :=
  Except.ok (symbols.filterMap (fun s => (f s).map (fun v => (s, v))))

/- ====================================================================== -/
/- Theorems.                                                              -/
/- ====================================================================== -/

/- Character-level facts about the ASCII case tables. -/

theorem py_char_upper_idem (c : Char) :
    py_char_upper (py_char_upper c) = py_char_upper c := by
  cases h : upPairs.find? (fun p => p.1 == c) with
  | none => simp [py_char_upper, h]
  | some p =>
    have hp : p ∈ upPairs := List.mem_of_find?_eq_some h
    have hf : upPairs.all
        (fun x => (upPairs.find? (fun q => q.1 == x.2)).isNone) = true := by decide
    have hnone : upPairs.find? (fun q => q.1 == p.2) = none :=
      Option.isNone_iff_eq_none.mp (List.all_eq_true.mp hf p hp)
    simp [py_char_upper, h, hnone]

theorem py_char_lower_upper_lower (c : Char) :
    py_char_lower (py_char_upper (py_char_lower c)) = py_char_lower c := by
  cases h : downPairs.find? (fun p => p.1 == c) with
  | some p =>
    have hp : p ∈ downPairs := List.mem_of_find?_eq_some h
    have hc : py_char_lower c = p.2 := by simp [py_char_lower, h]
    have hf : downPairs.all
        (fun x => py_char_lower (py_char_upper x.2) == x.2) = true := by decide
    have h2 : py_char_lower (py_char_upper p.2) = p.2 := by
      have := List.all_eq_true.mp hf p hp
      simpa using this
    rw [hc, h2]
  | none =>
    have hc : py_char_lower c = c := by simp [py_char_lower, h]
    rw [hc]
    cases h2 : upPairs.find? (fun p => p.1 == c) with
    | some q =>
      have hq : q ∈ upPairs := List.mem_of_find?_eq_some h2
      have hq1 : q.1 = c := by simpa using List.find?_some h2
      have hu : py_char_upper c = q.2 := by simp [py_char_upper, h2]
      have hf : upPairs.all (fun x => py_char_lower x.2 == x.1) = true := by decide
      have h3 : py_char_lower q.2 = q.1 := by
        have := List.all_eq_true.mp hf q hq
        simpa using this
      rw [hu, h3, hq1]
    | none =>
      have hu : py_char_upper c = c := by simp [py_char_upper, h2]
      rw [hu, hc]

theorem py_is_space_py_char_upper (c : Char) :
    py_is_space_char (py_char_upper c) = py_is_space_char c := by
  cases h : upPairs.find? (fun p => p.1 == c) with
  | none => simp [py_char_upper, h]
  | some p =>
    have hp : p ∈ upPairs := List.mem_of_find?_eq_some h
    have hp1 : p.1 = c := by simpa using List.find?_some h
    have hf : upPairs.all
        (fun x => !py_is_space_char x.1 && !py_is_space_char x.2) = true := by decide
    have hx := List.all_eq_true.mp hf p hp
    simp only [Bool.and_eq_true, Bool.not_eq_true'] at hx
    have hu : py_char_upper c = p.2 := by simp [py_char_upper, h]
    rw [hu, hx.2, ← hp1, hx.1]

theorem py_is_alpha_py_char_upper (c : Char) :
    py_is_alpha_char (py_char_upper c) = py_is_alpha_char c := by
  cases h : upPairs.find? (fun p => p.1 == c) with
  | none => simp [py_char_upper, h]
  | some p =>
    have hp : p ∈ upPairs := List.mem_of_find?_eq_some h
    have hp1 : p.1 = c := by simpa using List.find?_some h
    have hf : upPairs.all
        (fun x => py_is_alpha_char x.1 && py_is_alpha_char x.2) = true := by decide
    have hx := List.all_eq_true.mp hf p hp
    simp only [Bool.and_eq_true] at hx
    have hu : py_char_upper c = p.2 := by simp [py_char_upper, h]
    rw [hu, hx.2, ← hp1, hx.1]

theorem py_is_lower_of_alpha_lower (c : Char)
    (h : py_is_alpha_char (py_char_lower c) = true) :
    py_is_lower_char (py_char_lower c) = true := by
  cases hf : downPairs.find? (fun p => p.1 == c) with
  | some p =>
    have hp : p ∈ downPairs := List.mem_of_find?_eq_some hf
    have hfact : downPairs.all (fun x => py_is_lower_char x.2) = true := by decide
    have hl : py_char_lower c = p.2 := by simp [py_char_lower, hf]
    rw [hl]
    exact List.all_eq_true.mp hfact p hp
  | none =>
    have hl : py_char_lower c = c := by simp [py_char_lower, hf]
    rw [hl] at h ⊢
    cases hlo : py_is_lower_char c with
    | true => rfl
    | false =>
      exfalso
      have hup : py_is_upper_char c = true := by
        unfold py_is_alpha_char at h
        rw [hlo] at h
        simpa using h
      obtain ⟨q, hq, hq1⟩ := List.any_eq_true.mp hup
      exact List.find?_eq_none.mp hf q hq hq1

theorem py_is_alpha_not_space (c : Char) (h : py_is_alpha_char c = true) :
    py_is_space_char c = false := by
  unfold py_is_alpha_char at h
  have h2 : py_is_lower_char c = true ∨ py_is_upper_char c = true := by simpa using h
  rcases h2 with hl | hu
  · obtain ⟨p, hp, hpc⟩ := List.any_eq_true.mp hl
    have hpc1 : p.1 = c := by simpa using hpc
    have hfact : upPairs.all (fun x => !py_is_space_char x.1) = true := by decide
    have := List.all_eq_true.mp hfact p hp
    simp only [Bool.not_eq_true'] at this
    rw [← hpc1, this]
  · obtain ⟨p, hp, hpc⟩ := List.any_eq_true.mp hu
    have hpc1 : p.1 = c := by simpa using hpc
    have hfact : downPairs.all (fun x => !py_is_space_char x.1) = true := by decide
    have := List.all_eq_true.mp hfact p hp
    simp only [Bool.not_eq_true'] at this
    rw [← hpc1, this]

/- List-level facts about upper, lower and strip. -/

theorem py_upper_py_upper (s : PyStr) : py_upper (py_upper s) = py_upper s := by
  unfold py_upper
  rw [List.map_map]
  have hfun : (py_char_upper ∘ py_char_upper) = py_char_upper :=
    funext py_char_upper_idem
  rw [hfun]

theorem dropWhile_dropWhile_eq {α : Type} (p : α → Bool) (l : List α) :
    (l.dropWhile p).dropWhile p = l.dropWhile p := by
  induction l with
  | nil => rfl
  | cons a l ih =>
    by_cases h : p a = true
    · simp [List.dropWhile_cons, h, ih]
    · simp [List.dropWhile_cons, h]

theorem dropWhile_shape {α : Type} (p : α → Bool) (l : List α) :
    l.dropWhile p = [] ∨ ∃ c t, l.dropWhile p = c :: t ∧ p c = false := by
  induction l with
  | nil => left; rfl
  | cons a l ih =>
    by_cases h : p a = true
    · simpa [List.dropWhile_cons, h] using ih
    · right
      exact ⟨a, l, by simp [List.dropWhile_cons, h], by simpa using h⟩

theorem trim_right_keeps_head {α : Type} (p : α → Bool) (A : List α)
    (hA : A = [] ∨ ∃ c t, A = c :: t ∧ p c = false) :
    ((A.reverse.dropWhile p).reverse).dropWhile p = (A.reverse.dropWhile p).reverse := by
  have hpre : ∃ r, (A.reverse.dropWhile p).reverse ++ r = A := by
    have h1 : ((A.reverse.dropWhile p).reverse).reverse <:+ A.reverse := by
      rw [List.reverse_reverse]
      exact List.dropWhile_suffix p
    exact List.reverse_suffix.mp h1
  obtain ⟨r, hr⟩ := hpre
  rcases hA with h0 | ⟨c, t, hct, hc⟩
  · subst h0
    simp
  · cases hB : (A.reverse.dropWhile p).reverse with
    | nil => simp
    | cons b bs =>
      rw [hB, hct] at hr
      have hbc : b = c := by
        have h2 := hr
        simp only [List.cons_append, List.cons.injEq] at h2
        exact h2.1
      simp [List.dropWhile_cons, hbc, hc]

theorem py_strip_strip (s : PyStr) : py_strip (py_strip s) = py_strip s := by
  unfold py_strip
  rw [trim_right_keeps_head py_is_space_char (s.dropWhile py_is_space_char)
        (dropWhile_shape py_is_space_char s)]
  rw [List.reverse_reverse, dropWhile_dropWhile_eq]

theorem dropWhile_space_map_upper (l : PyStr) :
    (l.map py_char_upper).dropWhile py_is_space_char
      = (l.dropWhile py_is_space_char).map py_char_upper := by
  rw [List.dropWhile_map]
  have hfun : (py_is_space_char ∘ py_char_upper) = py_is_space_char :=
    funext py_is_space_py_char_upper
  rw [hfun]

theorem py_upper_strip_comm (s : PyStr) :
    py_upper (py_strip s) = py_strip (py_upper s) := by
  simp only [py_upper, py_strip, dropWhile_space_map_upper, ← List.map_reverse]

theorem norm_query_idem (s : PyStr) : norm_query (norm_query s) = norm_query s := by
  unfold norm_query
  rw [py_upper_strip_comm, py_upper_py_upper, py_strip_strip]

theorem dropWhile_eq_self_of_no {α : Type} (p : α → Bool) (l : List α)
    (h : ∀ c ∈ l, p c = false) : l.dropWhile p = l := by
  cases l with
  | nil => rfl
  | cons a t => simp [List.dropWhile_cons, h a (List.mem_cons_self a t)]

theorem py_strip_of_no_space (s : PyStr)
    (h : ∀ c ∈ s, py_is_space_char c = false) : py_strip s = s := by
  unfold py_strip
  rw [dropWhile_eq_self_of_no _ _ h]
  rw [dropWhile_eq_self_of_no _ _ (fun c hc => h c (List.mem_reverse.mp hc))]
  exact List.reverse_reverse s

theorem py_lower_upper_lower (s : PyStr) :
    py_lower (py_upper (py_lower s)) = py_lower s := by
  unfold py_lower py_upper
  rw [List.map_map, List.map_map]
  exact List.map_congr_left (fun c _ => py_char_lower_upper_lower c)

theorem py_isupper_py_lower (s : PyStr) : py_isupper (py_lower s) = false := by
  unfold py_isupper
  cases hany : (py_lower s).any py_is_alpha_char with
  | false => simp [hany]
  | true =>
    obtain ⟨c, hc, hcalpha⟩ := List.any_eq_true.mp hany
    obtain ⟨c0, hc0, hcc⟩ := List.mem_map.mp hc
    have hl : py_is_lower_char c = true := by
      rw [← hcc] at hcalpha ⊢
      exact py_is_lower_of_alpha_lower c0 hcalpha
    have hall : (py_lower s).all (fun c => !py_is_lower_char c) = false := by
      cases hA : (py_lower s).all (fun c => !py_is_lower_char c) with
      | false => rfl
      | true =>
        have := List.all_eq_true.mp hA c hc
        rw [hl] at this
        simp at this
    rw [hall]
    rfl

/- Resolver-level facts. -/

theorem table_lookup_mem {t : List (PyStr × PyStr)} {k v : PyStr}
    (h : table_lookup t k = some v) : ∃ p ∈ t, p.2 = v := by
  unfold table_lookup at h
  cases hf : t.find? (fun p => p.1 == k) with
  | none => rw [hf] at h; simp at h
  | some p =>
    rw [hf] at h
    simp at h
    exact ⟨p, List.mem_of_find?_eq_some hf, h⟩

theorem convert_api_core_out (q : PyStr) :
    convert_api_core q = q ∨ ∃ p ∈ api_alias_table, convert_api_core q = p.2 := by
  unfold convert_api_core
  split
  · exact Or.inl rfl
  · split
    · rename_i v hv
      obtain ⟨p, hp, hpv⟩ := table_lookup_mem hv
      exact Or.inr ⟨p, hp, hpv.symm⟩
    · split
      · rename_i v hv
        obtain ⟨p, hp, hpv⟩ := table_lookup_mem hv
        exact Or.inr ⟨p, hp, hpv.symm⟩
      · exact Or.inl rfl

theorem norm_convert_api_core (u : PyStr) (hu : norm_query u = u) :
    norm_query (convert_api_core u) = convert_api_core u := by
  rcases convert_api_core_out u with h | ⟨p, hp, h⟩
  · rw [h]
    exact hu
  · rw [h]
    have hf : api_alias_table.all (fun p => norm_query p.2 == p.2) = true := by decide
    have := List.all_eq_true.mp hf p hp
    simpa using this

theorem convert_api_core_core (u : PyStr) :
    convert_api_core (convert_api_core u) = convert_api_core u := by
  rcases convert_api_core_out u with h | ⟨p, hp, h⟩
  · rw [h]
    exact h
  · rw [h]
    have hf : api_alias_table.all
        (fun p => convert_api_core p.2 == p.2) = true := by decide
    have := List.all_eq_true.mp hf p hp
    simpa using this

theorem convert_api_idem (s : PyStr) :
    convert_to_symbol_api (convert_to_symbol_api s) = convert_to_symbol_api s := by
  unfold convert_to_symbol_api
  rw [norm_convert_api_core (norm_query s) (norm_query_idem s)]
  exact convert_api_core_core (norm_query s)

theorem convert_agents_absorb (s : PyStr) :
    convert_to_symbol_agents (py_upper (py_lower s)) = convert_to_symbol_agents s := by
  unfold convert_to_symbol_agents
  rw [py_lower_upper_lower]

theorem convert_agents_out (s : PyStr) :
    convert_to_symbol_agents s = py_upper (py_lower s)
      ∨ ∃ p ∈ agents_alias_table, convert_to_symbol_agents s = p.2 := by
  unfold convert_to_symbol_agents convert_agents_core
  split
  · rename_i h
    rw [py_isupper_py_lower] at h
    simp at h
  · split
    · rename_i v hv
      obtain ⟨p, hp, hpv⟩ := table_lookup_mem hv
      exact Or.inr ⟨p, hp, hpv.symm⟩
    · exact Or.inl rfl

theorem convert_agents_idem (s : PyStr) :
    convert_to_symbol_agents (convert_to_symbol_agents s) = convert_to_symbol_agents s := by
  rcases convert_agents_out s with h | ⟨p, hp, h⟩
  · rw [h, convert_agents_absorb]
    exact h
  · rw [h]
    have hf : agents_alias_table.all
        (fun p => convert_to_symbol_agents p.2 == p.2) = true := by decide
    have := List.all_eq_true.mp hf p hp
    simpa using this

/-- C8: for every input string, both _convert_to_symbol implementations are
idempotent: resolve(resolve(x)) equals resolve(x). Totality holds by
construction: both resolvers are total Lean functions, mirroring the Python
code, which performs no raising operation on any input string. -/
theorem c8_resolver_idempotent (s : PyStr) :
    convert_to_symbol_api (convert_to_symbol_api s) = convert_to_symbol_api s
    ∧ convert_to_symbol_agents (convert_to_symbol_agents s)
        = convert_to_symbol_agents s :=
  ⟨convert_api_idem s, convert_agents_idem s⟩

/-- C9 counterexample: the query tesla has the canonical ticker shape (five
alphabetic characters), yet the agents _convert_to_symbol lowercases it,
finds it in the alias table and returns TSLA, not the uppercased query
TESLA. -/
theorem c9_counterexample :
    (("tesla".data : PyStr).length ≤ 5 ∧ py_isalpha "tesla".data = true)
    ∧ convert_to_symbol_agents "tesla".data = "TSLA".data
    ∧ py_upper "tesla".data = "TESLA".data
    ∧ convert_to_symbol_agents "tesla".data ≠ py_upper "tesla".data := by decide

/-- C9 (amended to the api resolver): every query of canonical ticker shape
(at most five characters, all alphabetic) is returned uppercased and
otherwise unchanged by the api _convert_to_symbol, the alias table never
being consulted; the agents resolver instead lowercases the query first and
applies its alias table, as the counterexample shows. -/
theorem c9_ticker_shape_uppercased (q : PyStr) (h1 : q.length ≤ 5)
    (h2 : py_isalpha q = true) : convert_to_symbol_api q = py_upper q := by
  have h2b : (!q.isEmpty) = true ∧ q.all py_is_alpha_char = true := by
    unfold py_isalpha at h2
    simpa using h2
  have halpha : ∀ c ∈ py_upper q, py_is_alpha_char c = true := by
    intro c hc
    obtain ⟨c0, hc0, rfl⟩ := List.mem_map.mp hc
    rw [py_is_alpha_py_char_upper]
    exact List.all_eq_true.mp h2b.2 c0 hc0
  have hnospace : ∀ c ∈ py_upper q, py_is_space_char c = false :=
    fun c hc => py_is_alpha_not_space c (halpha c hc)
  have hnorm : norm_query q = py_upper q := by
    unfold norm_query
    exact py_strip_of_no_space _ hnospace
  have hcond : (py_upper q).length ≤ 5 ∧ py_isalpha (py_upper q) = true := by
    constructor
    · unfold py_upper
      rw [List.length_map]
      exact h1
    · unfold py_isalpha
      have hne : (!(py_upper q).isEmpty) = true := by
        unfold py_upper
        cases q with
        | nil => simp at h2b
        | cons a t => simp
      rw [hne]
      simp only [Bool.true_and]
      exact List.all_eq_true.mpr halpha
  unfold convert_to_symbol_api
  rw [hnorm]
  unfold convert_api_core
  rw [if_pos hcond]

/-- C9 witness: the ticker-shaped query msft is returned as MSFT by the api
resolver. -/
theorem c9_witness :
    ("msft".data : PyStr).length ≤ 5 ∧ py_isalpha "msft".data = true
    ∧ convert_to_symbol_api "msft".data = py_upper "msft".data :=
  ⟨by decide, by decide, c9_ticker_shape_uppercased "msft".data (by decide) (by decide)⟩

/- Float sanitizer facts. -/

theorem sanitize_float_agents_bounded (v : PyVal) :
    |sanitize_float_agents v| ≤ json_float_bound := by
  have hpos : (0 : ℚ) ≤ json_float_bound := by
    unfold json_float_bound
    positivity
  cases v with
  | pynone => simpa [sanitize_float_agents] using hpos
  | nonNumeric => simpa [sanitize_float_agents] using hpos
  | flt f =>
    cases f with
    | nan => simpa [sanitize_float_agents] using hpos
    | inf => simpa [sanitize_float_agents] using hpos
    | ninf => simpa [sanitize_float_agents] using hpos
    | num q =>
      simp only [sanitize_float_agents]
      split
      · simpa using hpos
      · rename_i h
        exact le_of_not_gt h

theorem sanitize_float_api_eq_agents (v : PyVal) :
    sanitize_float_api v = sanitize_float_agents v := by
  cases v with
  | pynone => rfl
  | nonNumeric => rfl
  | flt f => cases f <;> rfl

/-- C3: both _sanitize_float implementations return a JSON-safe finite
number on every input: None, nan, the infinities and non-coercible values map
to 0.0, every finite value above the 1e308 bound maps to 0.0, every finite
in-range value is returned unchanged, and the result always lies within the
JSON bound. Totality (the function never raises) holds by construction: the
except clause of the source catches every failure and the model is a total
function. -/
theorem c3_sanitizer_json_safe :
    (∀ v : PyVal, |sanitize_float_agents v| ≤ json_float_bound
        ∧ |sanitize_float_api v| ≤ json_float_bound)
    ∧ (∀ q : ℚ, |q| ≤ json_float_bound →
        sanitize_float_agents (.flt (.num q)) = q
        ∧ sanitize_float_api (.flt (.num q)) = q)
    ∧ (∀ q : ℚ, json_float_bound < |q| →
        sanitize_float_agents (.flt (.num q)) = 0
        ∧ sanitize_float_api (.flt (.num q)) = 0)
    ∧ sanitize_float_agents .pynone = 0
    ∧ sanitize_float_agents (.flt .nan) = 0
    ∧ sanitize_float_agents (.flt .inf) = 0
    ∧ sanitize_float_agents (.flt .ninf) = 0
    ∧ sanitize_float_agents .nonNumeric = 0
    ∧ sanitize_float_api .pynone = 0
    ∧ sanitize_float_api (.flt .nan) = 0
    ∧ sanitize_float_api (.flt .inf) = 0
    ∧ sanitize_float_api (.flt .ninf) = 0
    ∧ sanitize_float_api .nonNumeric = 0 := by
  refine ⟨fun v => ⟨sanitize_float_agents_bounded v, ?_⟩, fun q hq => ⟨?_, ?_⟩,
    fun q hq => ⟨?_, ?_⟩, rfl, rfl, rfl, rfl, rfl, rfl, rfl, rfl, rfl, rfl⟩
  · rw [sanitize_float_api_eq_agents]
    exact sanitize_float_agents_bounded v
  · simp only [sanitize_float_agents]
    rw [if_neg (not_lt.mpr hq)]
  · rw [sanitize_float_api_eq_agents]
    simp only [sanitize_float_agents]
    rw [if_neg (not_lt.mpr hq)]
  · simp only [sanitize_float_agents]
    rw [if_pos hq]
  · rw [sanitize_float_api_eq_agents]
    simp only [sanitize_float_agents]
    rw [if_pos hq]

/-- C3 witness: the finite in-range value 5 passes through both sanitizers
unchanged, and nan maps to 0. -/
theorem c3_witness :
    |(5 : ℚ)| ≤ json_float_bound
    ∧ sanitize_float_agents (.flt (.num 5)) = 5
    ∧ sanitize_float_api (.flt (.num 5)) = 5 := by
  have h5 : |(5 : ℚ)| ≤ json_float_bound := by
    rw [abs_of_nonneg (by norm_num)]
    unfold json_float_bound
    calc (5 : ℚ) ≤ 10 ^ 1 := by norm_num
    _ ≤ 10 ^ 308 := by
      exact pow_le_pow_right₀ (by norm_num) (by norm_num)
  exact ⟨h5, (c3_sanitizer_json_safe.2.1 5 h5).1, (c3_sanitizer_json_safe.2.1 5 h5).2⟩

/- Recursive data sanitizer facts, proved by mutual structural recursion. -/

mutual
theorem mask_sanitize_data : ∀ d : PyData,
    mask_floats (sanitize_data d) = mask_floats d
  | .dict es => by rw [sanitize_data, mask_floats, mask_floats, mask_sanitize_entries es]
  | .lst xs => by rw [sanitize_data, mask_floats, mask_floats, mask_sanitize_items xs]
  | .flt .nan => rfl
  | .flt .inf => rfl
  | .flt .ninf => rfl
  | .flt (.num q) => rfl
  | .intg n => rfl
  | .strv s => rfl
  | .boolv b => rfl
  | .pynone => rfl
theorem mask_sanitize_entries : ∀ es : PyEntries,
    mask_entries (sanitize_entries es) = mask_entries es
  | .nil => rfl
  | .cons k v es => by
    rw [sanitize_entries, mask_entries, mask_entries, mask_sanitize_data v,
      mask_sanitize_entries es]
theorem mask_sanitize_items : ∀ xs : PyItems,
    mask_items (sanitize_items xs) = mask_items xs
  | .nil => rfl
  | .cons x xs => by
    rw [sanitize_items, mask_items, mask_items, mask_sanitize_data x,
      mask_sanitize_items xs]
end

theorem dict_keys_sanitize : ∀ es : PyEntries,
    dict_keys (sanitize_entries es) = dict_keys es
  | .nil => rfl
  | .cons k v es => by
    rw [sanitize_entries, dict_keys, dict_keys, dict_keys_sanitize es]

theorem items_length_sanitize : ∀ xs : PyItems,
    items_length (sanitize_items xs) = items_length xs
  | .nil => rfl
  | .cons x xs => by
    rw [sanitize_items, items_length, items_length, items_length_sanitize xs]

/-- C10: _sanitize_data is a frame-preserving map: erasing float values, the
sanitized object is identical to the input (so dictionary keys, list lengths,
element order and every non-float leaf are unchanged); dict keys and list
lengths are preserved; non-float leaves are returned unchanged; and float
leaves are the only altered values, nan and the infinities becoming 0.0 while
finite floats pass through. -/
theorem c10_sanitize_data_frame :
    (∀ d : PyData, mask_floats (sanitize_data d) = mask_floats d)
    ∧ (∀ es : PyEntries, dict_keys (sanitize_entries es) = dict_keys es)
    ∧ (∀ xs : PyItems, items_length (sanitize_items xs) = items_length xs)
    ∧ (∀ n : ℤ, sanitize_data (.intg n) = .intg n)
    ∧ (∀ s : String, sanitize_data (.strv s) = .strv s)
    ∧ (∀ b : Bool, sanitize_data (.boolv b) = .boolv b)
    ∧ sanitize_data .pynone = .pynone
    ∧ (∀ q : ℚ, sanitize_data (.flt (.num q)) = .flt (.num q))
    ∧ sanitize_data (.flt .nan) = .flt (.num 0)
    ∧ sanitize_data (.flt .inf) = .flt (.num 0)
    ∧ sanitize_data (.flt .ninf) = .flt (.num 0) :=
  ⟨mask_sanitize_data, dict_keys_sanitize, items_length_sanitize,
    fun _ => rfl, fun _ => rfl, fun _ => rfl, rfl, fun _ => rfl, rfl, rfl, rfl⟩

/- Cache store facts. -/

theorem store_lookup_cache_data {α : Type} (store : CacheStore α) (sym : String)
    (d : α) (now : ℚ) : store_lookup (cache_data store sym d now) sym = some (d, now) := by
  simp [store_lookup, cache_data, List.find?_cons]

theorem store_lookup_remove_key {α : Type} (store : CacheStore α) (sym : String) :
    store_lookup (remove_key store sym) sym = none := by
  induction store with
  | nil => rfl
  | cons e es ih =>
    unfold remove_key at ih ⊢
    cases he : e.1 == sym with
    | true =>
      rw [List.filter_cons, he]
      exact ih
    | false =>
      unfold store_lookup at ih ⊢
      rw [List.filter_cons]
      simp only [he, Bool.not_false, if_true]
      rw [List.find?_cons_of_neg _ (by simp [he])]
      exact ih

/-- C2 counterexample: the file-backed cache of the agents advisor does not
evict on a stale lookup. A store holding an entry fetched at time 0, read at
time 600 (the TTL), returns nothing but the lookup leaves the stale entry in
the store, where the claim demands eviction as part of the lookup. -/
theorem c2_counterexample :
    (load_from_cache stale_store "AAPL" 600).1 = none
    ∧ (load_from_cache stale_store "AAPL" 600).2 = stale_store
    ∧ store_lookup stale_store "AAPL" = some (42, 0) := by
  have h : ¬((600 : ℚ) - 0 < 600) := by norm_num
  refine ⟨?_, ?_, ?_⟩
  · simp [load_from_cache, stale_store, store_lookup, h]
  · simp [load_from_cache, stale_store, store_lookup, h]
  · simp [stale_store, store_lookup]

/-- C2 (amended): the in-memory cache of the api advisor behaves exactly as
claimed with its 5-minute TTL: after a put at time t0, a get at time t
returns the stored payload unchanged if and only if t - t0 is below the TTL,
and a stale get returns nothing and evicts the entry as part of the lookup.
The file-backed cache of the agents advisor (TTL 600 seconds) also returns
the payload exactly while fresh and nothing when stale, but the stale file
stays in the store, as the counterexample shows. -/
theorem c2_cache_ttl :
    (∀ (α : Type) (store : CacheStore α) (sym : String) (d : α) (t0 t : ℚ),
      (t - t0 < 300 →
        get_cached_data (cache_data store sym d t0) sym t
          = (some d, cache_data store sym d t0))
      ∧ (300 ≤ t - t0 →
        (get_cached_data (cache_data store sym d t0) sym t).1 = none
        ∧ store_lookup (get_cached_data (cache_data store sym d t0) sym t).2 sym
            = none))
    ∧ (∀ (α : Type) (store : CacheStore α) (sym : String) (d : α) (t0 t : ℚ),
      (t - t0 < 600 →
        load_from_cache (save_to_cache store sym d t0) sym t
          = (some d, save_to_cache store sym d t0))
      ∧ (600 ≤ t - t0 →
        load_from_cache (save_to_cache store sym d t0) sym t
          = (none, save_to_cache store sym d t0))) := by
  constructor
  · intro α store sym d t0 t
    have hl : store_lookup (cache_data store sym d t0) sym = some (d, t0) :=
      store_lookup_cache_data store sym d t0
    constructor
    · intro hfresh
      unfold get_cached_data
      rw [hl]
      simp only [if_pos hfresh]
    · intro hstale
      unfold get_cached_data
      rw [hl]
      simp only [if_neg (not_lt.mpr hstale)]
      exact ⟨by simp, store_lookup_remove_key (cache_data store sym d t0) sym⟩
  · intro α store sym d t0 t
    have hl : store_lookup (save_to_cache store sym d t0) sym = some (d, t0) :=
      store_lookup_cache_data store sym d t0
    constructor
    · intro hfresh
      unfold load_from_cache
      rw [hl]
      simp only [if_pos hfresh]
    · intro hstale
      unfold load_from_cache
      rw [hl]
      simp only [if_neg (not_lt.mpr hstale)]

/-- C2 witness: a payload cached at time 0 is served at time 100 and gone at
time 300 by the api cache; the agents cache serves it at time 100 and
refuses it at time 600. -/
theorem c2_witness :
    get_cached_data (cache_data ([] : CacheStore ℚ) "AAPL" 7 0) "AAPL" 100
      = (some 7, cache_data ([] : CacheStore ℚ) "AAPL" 7 0)
    ∧ (get_cached_data (cache_data ([] : CacheStore ℚ) "AAPL" 7 0) "AAPL" 300).1
        = none
    ∧ load_from_cache (save_to_cache ([] : CacheStore ℚ) "AAPL" 7 0) "AAPL" 100
        = (some 7, save_to_cache ([] : CacheStore ℚ) "AAPL" 7 0)
    ∧ load_from_cache (save_to_cache ([] : CacheStore ℚ) "AAPL" 7 0) "AAPL" 600
        = (none, save_to_cache ([] : CacheStore ℚ) "AAPL" 7 0) :=
  ⟨(c2_cache_ttl.1 ℚ [] "AAPL" 7 0 100).1 (by norm_num),
   ((c2_cache_ttl.1 ℚ [] "AAPL" 7 0 300).2 (by norm_num)).1,
   (c2_cache_ttl.2 ℚ [] "AAPL" 7 0 100).1 (by norm_num),
   (c2_cache_ttl.2 ℚ [] "AAPL" 7 0 600).2 (by norm_num)⟩

/- Provider chain facts. -/

theorem fetch_attempt_loop_all_fail {α : Type} (p1 p2 p3 p4 : ℕ → Option α)
    (h1 : ∀ k, p1 k = none) (h2 : ∀ k, p2 k = none)
    (h3 : ∀ k, p3 k = none) (h4 : ∀ k, p4 k = none) :
    ∀ (n : ℕ) (k : ProviderCalls),
      fetch_attempt_loop p1 p2 p3 p4 n k
        = (none, ⟨k.yahoo + n, k.backup + n, k.alphaVantage + n, k.finnhub + n⟩) := by
  intro n
  induction n with
  | zero => intro k; simp [fetch_attempt_loop]
  | succ m ih =>
    intro k
    have hstep : try_providers_once p1 p2 p3 p4 k
        = (none, ⟨k.yahoo + 1, k.backup + 1, k.alphaVantage + 1, k.finnhub + 1⟩) := by
      simp [try_providers_once, h1, h2, h3, h4]
    simp only [fetch_attempt_loop, hstep]
    rw [ih ⟨k.yahoo + 1, k.backup + 1, k.alphaVantage + 1, k.finnhub + 1⟩]
    have e1 : k.yahoo + 1 + m = k.yahoo + (m + 1) := by omega
    have e2 : k.backup + 1 + m = k.backup + (m + 1) := by omega
    have e3 : k.alphaVantage + 1 + m = k.alphaVantage + (m + 1) := by omega
    have e4 : k.finnhub + 1 + m = k.finnhub + (m + 1) := by omega
    rw [e1, e2, e3, e4]

/-- C1 counterexample: with max_retries set to 3, a first provider that fails
on every call and a second provider that succeeds on its first call, the code
(attempt-major order) calls provider 1 exactly once before provider 2
returns, whereas the provider-major order of the claim calls provider 1 three
times before touching provider 2. The call counters of the two orders differ
at this concrete input. -/
theorem c1_counterexample :
    fetch_stock_data none 3 always_fail succeed_always always_fail always_fail
      = (some 42, ⟨1, 1, 0, 0⟩)
    ∧ fetch_provider_major_spec 3 always_fail succeed_always always_fail always_fail
      = (some 42, ⟨3, 1, 0, 0⟩)
    ∧ ((⟨1, 1, 0, 0⟩ : ProviderCalls) ≠ ⟨3, 1, 0, 0⟩) := by
  refine ⟨rfl, rfl, by decide⟩

/-- C1 (amended): _fetch_stock_data is attempt-major, not provider-major:
each of the up to max_retries iterations of its outer loop tries every
provider once, in the fixed priority order, falling through on failure. When
provider 1 fails and provider 2 succeeds on its first call, the fetch
returns the data of provider 2, having called provider 1 exactly once and
provider 2 exactly once, with no call to providers 3 and 4; cached data
short-circuits every provider; and when every provider fails on every call,
the fetch fails after calling each provider exactly max_retries times. The
exponential backoff 2 to the attempt sleeps only between outer attempts, in
the handler of errors escaping all four provider blocks. -/
theorem c1_attempt_major_fetch :
    (∀ (α : Type) (p1 p2 p3 p4 : ℕ → Option α) (v : α) (n : ℕ),
      p1 0 = none → p2 0 = some v →
        fetch_stock_data none (n + 1) p1 p2 p3 p4 = (some v, ⟨1, 1, 0, 0⟩))
    ∧ (∀ (α : Type) (p1 p2 p3 p4 : ℕ → Option α) (v : α) (n : ℕ),
        fetch_stock_data (some v) n p1 p2 p3 p4 = (some v, no_calls))
    ∧ (∀ (α : Type) (p1 p2 p3 p4 : ℕ → Option α) (n : ℕ),
        (∀ k, p1 k = none) → (∀ k, p2 k = none) →
        (∀ k, p3 k = none) → (∀ k, p4 k = none) →
        fetch_stock_data none n p1 p2 p3 p4 = (none, ⟨n, n, n, n⟩)) := by
  refine ⟨?_, ?_, ?_⟩
  · intro α p1 p2 p3 p4 v n h1 h2
    simp [fetch_stock_data, fetch_attempt_loop, try_providers_once, no_calls, h1, h2]
  · intro α p1 p2 p3 p4 v n
    rfl
  · intro α p1 p2 p3 p4 n h1 h2 h3 h4
    unfold fetch_stock_data
    rw [fetch_attempt_loop_all_fail p1 p2 p3 p4 h1 h2 h3 h4 n no_calls]
    simp [no_calls]

/-- C1 witness: the amended statement evaluated at the concrete providers of
the counterexample scenario, and at an all-failing chain with 3 attempts. -/
theorem c1_witness :
    fetch_stock_data none 3 always_fail succeed_always always_fail always_fail
      = (some 42, ⟨1, 1, 0, 0⟩)
    ∧ fetch_stock_data (some 7) 3 always_fail always_fail always_fail always_fail
      = (some 7, no_calls)
    ∧ fetch_stock_data none 3 always_fail always_fail always_fail always_fail
      = (none, ⟨3, 3, 3, 3⟩) :=
  ⟨c1_attempt_major_fetch.1 ℕ always_fail succeed_always always_fail always_fail
      42 2 rfl rfl,
   c1_attempt_major_fetch.2.1 ℕ always_fail always_fail always_fail always_fail 7 3,
   c1_attempt_major_fetch.2.2 ℕ always_fail always_fail always_fail always_fail 3
      (fun _ => rfl) (fun _ => rfl) (fun _ => rfl) (fun _ => rfl)⟩

/- Scoring bounds. -/

theorem momentum_score_api_bounds (m : ℚ) :
    0 ≤ momentum_score_api m ∧ momentum_score_api m ≤ 30 := by
  unfold momentum_score_api
  split
  · rename_i h
    constructor
    · have hmin : (0 : ℚ) < min m 10 := lt_min h (by norm_num)
      nlinarith
    · have hmin : min m 10 ≤ 10 := min_le_right m 10
      nlinarith
  · norm_num

theorem rsi_score_api_bounds (rsi : ℚ) :
    0 ≤ rsi_score_api rsi ∧ rsi_score_api rsi ≤ 20 := by
  unfold rsi_score_api
  split
  · norm_num
  · split
    · norm_num
    · split <;> norm_num

theorem pe_score_api_bounds (pe : ℚ) :
    0 ≤ pe_score_api pe ∧ pe_score_api pe ≤ 25 := by
  unfold pe_score_api
  split
  · norm_num
  · split <;> norm_num

theorem margin_score_api_bounds (m : ℚ) :
    0 ≤ margin_score_api m ∧ margin_score_api m ≤ 25 := by
  unfold margin_score_api
  split
  · norm_num
  · split
    · norm_num
    · split <;> norm_num

theorem rsi_score_ma_bounds (rsi : ℚ) :
    0 ≤ rsi_score_ma rsi ∧ rsi_score_ma rsi ≤ 20 := by
  unfold rsi_score_ma
  split
  · norm_num
  · split
    · norm_num
    · split <;> norm_num

theorem macd_score_ma_bounds (macd : ℚ) :
    0 ≤ macd_score_ma macd ∧ macd_score_ma macd ≤ 20 := by
  unfold macd_score_ma
  split <;> norm_num

theorem sma_score_ma_bounds (c s20 s50 : ℚ) :
    0 ≤ sma_score_ma c s20 s50 ∧ sma_score_ma c s20 s50 ≤ 20 := by
  unfold sma_score_ma
  split
  · norm_num
  · split <;> norm_num

theorem momentum_score_ma_bounds (m : ℚ) :
    0 ≤ momentum_score_ma m ∧ momentum_score_ma m ≤ 20 := by
  unfold momentum_score_ma
  split
  · norm_num
  · split <;> norm_num

theorem fundamental_score_ma_bounds (pe margin : ℚ) :
    0 ≤ fundamental_score_ma pe margin ∧ fundamental_score_ma pe margin ≤ 20 := by
  unfold fundamental_score_ma
  split <;> split <;> norm_num

/-- C6: the composite score lies within 0 and 100 for every combination of
momentum, RSI and fundamental inputs, in both scoring implementations (the
api _calculate_stock_score and the market analyzer scoring block). The error
path of the source returns 0, which also lies within the bounds. -/
theorem c6_score_within_bounds :
    (∀ momentum rsi pe margin : ℚ,
      0 ≤ calculate_stock_score momentum rsi pe margin
      ∧ calculate_stock_score momentum rsi pe margin ≤ 100)
    ∧ (∀ s : ScreenInput, 0 ≤ screen_stock_score s ∧ screen_stock_score s ≤ 100) := by
  constructor
  · intro momentum rsi pe margin
    obtain ⟨h1a, h1b⟩ := momentum_score_api_bounds momentum
    obtain ⟨h2a, h2b⟩ := rsi_score_api_bounds rsi
    obtain ⟨h3a, h3b⟩ := pe_score_api_bounds pe
    obtain ⟨h4a, h4b⟩ := margin_score_api_bounds margin
    unfold calculate_stock_score
    constructor
    · apply le_min (by linarith) (by norm_num)
    · exact min_le_right _ 100
  · intro s
    obtain ⟨h1a, h1b⟩ := rsi_score_ma_bounds s.rsi
    obtain ⟨h2a, h2b⟩ := macd_score_ma_bounds s.macd
    obtain ⟨h3a, h3b⟩ := sma_score_ma_bounds s.lastClose s.sma20 s.sma50
    obtain ⟨h4a, h4b⟩ := momentum_score_ma_bounds s.momentum
    obtain ⟨h5a, h5b⟩ :=
      fundamental_score_ma_bounds s.forwardPE (adjusted_margin s.profitMargins)
    unfold screen_stock_score
    constructor <;> linarith

/- Sorting facts for the screeners. -/

theorem insert_desc_length (x : ScoredStock) (l : List ScoredStock) :
    (insert_desc x l).length = l.length + 1 := by
  induction l with
  | nil => rfl
  | cons y ys ih =>
    unfold insert_desc
    split
    · simp
    · simpa using ih

theorem mem_insert_desc {a x : ScoredStock} {l : List ScoredStock} :
    a ∈ insert_desc x l ↔ a = x ∨ a ∈ l := by
  induction l with
  | nil => simp [insert_desc]
  | cons y ys ih =>
    unfold insert_desc
    split
    · simp [List.mem_cons]
    · rw [List.mem_cons, ih, List.mem_cons]
      tauto

theorem pairwise_insert_desc {x : ScoredStock} {l : List ScoredStock}
    (h : l.Pairwise (fun a b => b.score ≤ a.score)) :
    (insert_desc x l).Pairwise (fun a b => b.score ≤ a.score) := by
  induction l with
  | nil => simp [insert_desc]
  | cons y ys ih =>
    rw [List.pairwise_cons] at h
    obtain ⟨hy, hys⟩ := h
    unfold insert_desc
    split
    · rename_i hle
      rw [List.pairwise_cons]
      refine ⟨?_, ?_⟩
      · intro b hb
        rcases List.mem_cons.mp hb with rfl | hb2
        · exact hle
        · exact le_trans (hy b hb2) hle
      · rw [List.pairwise_cons]
        exact ⟨hy, hys⟩
    · rename_i hgt
      rw [List.pairwise_cons]
      refine ⟨?_, ih hys⟩
      intro b hb
      rcases mem_insert_desc.mp hb with rfl | hb2
      · exact le_of_lt (not_le.mp hgt)
      · exact hy b hb2

theorem sort_by_score_desc_length (l : List ScoredStock) :
    (sort_by_score_desc l).length = l.length := by
  induction l with
  | nil => rfl
  | cons x xs ih =>
    show (insert_desc x (xs.foldr insert_desc [])).length = xs.length + 1
    rw [insert_desc_length]
    have ih2 : (xs.foldr insert_desc []).length = xs.length := ih
    rw [ih2]

theorem sorted_sort_by_score_desc (l : List ScoredStock) :
    (sort_by_score_desc l).Pairwise (fun a b => b.score ≤ a.score) := by
  induction l with
  | nil => simp [sort_by_score_desc]
  | cons x xs ih =>
    have ih2 : (xs.foldr insert_desc []).Pairwise (fun a b => b.score ≤ a.score) := ih
    exact pairwise_insert_desc ih2

theorem mem_sort_by_score_desc {a : ScoredStock} {l : List ScoredStock} :
    a ∈ sort_by_score_desc l ↔ a ∈ l := by
  induction l with
  | nil => simp [sort_by_score_desc]
  | cons x xs ih =>
    show a ∈ insert_desc x (xs.foldr insert_desc []) ↔ a ∈ x :: xs
    rw [mem_insert_desc, List.mem_cons]
    have ih2 : a ∈ xs.foldr insert_desc [] ↔ a ∈ xs := ih
    rw [ih2]

/-- C4: both screeners return at most 10 entries, sorted by descending total
score; and a universe on which every symbol fails data acquisition yields the
empty list (the screeners are total functions: the source catches per-symbol
failures and the outer except returns the empty list). -/
theorem c4_screener_ranked_output :
    (∀ (cands : List String) (fetch : String → Option ScreenInput),
      (screen_potential_stocks cands fetch).length ≤ 10)
    ∧ (∀ (cands : List String) (fetch : String → Option ScreenInput),
      (screen_potential_stocks cands fetch).Pairwise (fun a b => b.score ≤ a.score))
    ∧ (∀ (cands : List String) (fetch : String → Option ScreenInput),
      (∀ s ∈ cands, fetch s = none) → screen_potential_stocks cands fetch = [])
    ∧ (∀ fetch : String → Option ApiStockInput,
      (find_potential_stocks fetch).length ≤ 10)
    ∧ (∀ fetch : String → Option ApiStockInput,
      (find_potential_stocks fetch).Pairwise (fun a b => b.score ≤ a.score))
    ∧ (∀ fetch : String → Option ApiStockInput,
      (∀ s, fetch s = none) → find_potential_stocks fetch = []) := by
  refine ⟨?_, ?_, ?_, ?_, ?_, ?_⟩
  · intro cands fetch
    unfold screen_potential_stocks
    rw [List.length_take]
    exact min_le_left _ _
  · intro cands fetch
    unfold screen_potential_stocks
    exact (sorted_sort_by_score_desc _).sublist (List.take_sublist _ _)
  · intro cands fetch h
    unfold screen_potential_stocks
    have hnil : cands.filterMap (fun sym =>
        match fetch sym with
        | none => none
        | some s =>
          let sc := screen_stock_score s
          if 60 ≤ sc then some (ScoredStock.mk sym sc) else none) = [] := by
      rw [List.filterMap_eq_nil_iff]
      intro s hs
      rw [h s hs]
    rw [hnil]
    rfl
  · intro fetch
    unfold find_potential_stocks
    rw [List.length_take]
    exact min_le_left _ _
  · intro fetch
    unfold find_potential_stocks
    exact (sorted_sort_by_score_desc _).sublist (List.take_sublist _ _)
  · intro fetch h
    unfold find_potential_stocks
    have hnil : tech_stocks.filterMap (fun sym =>
        (fetch sym).map (fun s =>
          ScoredStock.mk sym (calculate_stock_score s.momentum s.rsi s.trailingPE
            s.profitMargins))) = [] := by
      rw [List.filterMap_eq_nil_iff]
      intro s hs
      rw [h s]
      rfl
    rw [hnil]
    rfl

/-- C4 witness: a two-symbol universe on which every fetch fails screens to
the empty list, and an api screening pass on which every fetch fails returns
the empty list. -/
theorem c4_witness :
    screen_potential_stocks ["AAA", "BBB"] (fun _ => none) = []
    ∧ find_potential_stocks (fun _ => none) = [] :=
  ⟨c4_screener_ranked_output.2.2.1 ["AAA", "BBB"] (fun _ => none)
      (fun _ _ => rfl),
   c4_screener_ranked_output.2.2.2.2.2 (fun _ => none) (fun _ => rfl)⟩

/- Screening cutoff facts. -/

/-- C5 counterexample: the api _find_potential_stocks applies no score
cutoff. On a fetch oracle where only AAPL yields data, scoring 45 (momentum
0, RSI 45, trailing PE 25, zero margin), the returned potential-stock list
contains the 45-point entry, although 45 is below the fixed cutoff of 60
that the claim asserts for every returned symbol. -/
theorem c5_counterexample :
    find_potential_stocks low_score_fetch = [ScoredStock.mk "AAPL" 45]
    ∧ (45 : ℚ) < 60 := by
  have hscore : calculate_stock_score 0 45 25 0 = 45 := by
    unfold calculate_stock_score momentum_score_api rsi_score_api
      pe_score_api margin_score_api
    norm_num
  have e1 : low_score_fetch "AAPL" = some ⟨0, 45, 25, 0⟩ := by
    unfold low_score_fetch
    rw [if_pos rfl]
  have e2 : low_score_fetch "MSFT" = none := by
    unfold low_score_fetch
    rw [if_neg (by decide)]
  have e3 : low_score_fetch "GOOGL" = none := by
    unfold low_score_fetch
    rw [if_neg (by decide)]
  have e4 : low_score_fetch "NVDA" = none := by
    unfold low_score_fetch
    rw [if_neg (by decide)]
  have e5 : low_score_fetch "AMD" = none := by
    unfold low_score_fetch
    rw [if_neg (by decide)]
  have hfm : tech_stocks.filterMap (fun sym =>
      (low_score_fetch sym).map (fun s =>
        ScoredStock.mk sym (calculate_stock_score s.momentum s.rsi s.trailingPE
          s.profitMargins))) = [ScoredStock.mk "AAPL" 45] := by
    simp only [tech_stocks, List.filterMap_cons, List.filterMap_nil,
      e1, e2, e3, e4, e5, Option.map_some, Option.map_none]
    simp [hscore]
  constructor
  · show (sort_by_score_desc (tech_stocks.filterMap (fun sym =>
      (low_score_fetch sym).map (fun s =>
        ScoredStock.mk sym (calculate_stock_score s.momentum s.rsi s.trailingPE
          s.profitMargins))))).take 10 = [ScoredStock.mk "AAPL" 45]
    rw [hfm]
    rfl
  · norm_num

/-- C5 (amended to the market analyzer screener): every entry of the list
returned by _screen_potential_stocks has a total score of at least 60 (line
709 keeps a stock only when score is at least 60); the api
_find_potential_stocks applies no such cutoff, as the counterexample shows. -/
theorem c5_screen_cutoff (cands : List String)
    (fetch : String → Option ScreenInput) (e : ScoredStock)
    (h : e ∈ screen_potential_stocks cands fetch) : 60 ≤ e.score := by
  unfold screen_potential_stocks at h
  have h2 : e ∈ sort_by_score_desc (cands.filterMap (fun sym =>
      match fetch sym with
      | none => none
      | some s =>
        let sc := screen_stock_score s
        if 60 ≤ sc then some (ScoredStock.mk sym sc) else none)) :=
    List.take_subset _ _ h
  have h3 := mem_sort_by_score_desc.mp h2
  obtain ⟨sym, hsym, hfn⟩ := List.mem_filterMap.mp h3
  cases hfetch : fetch sym with
  | none => rw [hfetch] at hfn; simp at hfn
  | some s =>
    rw [hfetch] at hfn
    simp only at hfn
    split at hfn
    · rename_i hge
      cases hfn
      exact hge
    · simp at hfn

/-- C5 witness: on a fetch oracle whose data scores 90, the market analyzer
screener returns the entry and the cutoff theorem applies to it. -/
theorem c5_witness :
    screen_potential_stocks ["AAA"] high_score_fetch = [ScoredStock.mk "AAA" 90]
    ∧ 60 ≤ (ScoredStock.mk "AAA" (90 : ℚ)).score := by
  have hscore : screen_stock_score ⟨50, 1, 10, 5, 2, 5, 10, 0⟩ = 90 := by
    unfold screen_stock_score rsi_score_ma macd_score_ma sma_score_ma
      momentum_score_ma fundamental_score_ma adjusted_margin
    norm_num
  have hfm : (["AAA"] : List String).filterMap (fun sym =>
      match high_score_fetch sym with
      | none => none
      | some s =>
        let sc := screen_stock_score s
        if 60 ≤ sc then some (ScoredStock.mk sym sc) else none)
      = [ScoredStock.mk "AAA" 90] := by
    simp only [high_score_fetch, List.filterMap_cons, List.filterMap_nil]
    rw [hscore]
    rw [if_pos (by norm_num)]
  have hmem : screen_potential_stocks ["AAA"] high_score_fetch
      = [ScoredStock.mk "AAA" 90] := by
    show (sort_by_score_desc ((["AAA"] : List String).filterMap (fun sym =>
      match high_score_fetch sym with
      | none => none
      | some s =>
        let sc := screen_stock_score s
        if 60 ≤ sc then some (ScoredStock.mk sym sc) else none))).take 10
      = [ScoredStock.mk "AAA" 90]
    rw [hfm]
    rfl
  refine ⟨hmem, ?_⟩
  exact c5_screen_cutoff ["AAA"] high_score_fetch (ScoredStock.mk "AAA" 90)
    (by rw [hmem]; exact List.mem_singleton.mpr rfl)

/- Batch analysis facts. -/

theorem analyze_api_closed_form {α : Type} (symbols : List PyStr)
    (f : PyStr → Option α) :
    analyze_investment_api symbols f =
      if (symbols.map convert_to_symbol_api).isEmpty then
        Except.error "no valid symbols"
      else if ((symbols.map convert_to_symbol_api).filterMap
          (fun s => (f s).map (fun v => (s, v)))).isEmpty then
        Except.error "no data for any symbol"
      else Except.ok ((symbols.map convert_to_symbol_api).filterMap
          (fun s => (f s).map (fun v => (s, v)))) := rfl

theorem analyze_api_ok_of_mem {α : Type} (symbols : List PyStr)
    (f : PyStr → Option α) (s : PyStr) (v : α) (hs : s ∈ symbols)
    (hv : f (convert_to_symbol_api s) = some v) :
    analyze_investment_api symbols f
      = Except.ok ((symbols.map convert_to_symbol_api).filterMap
          (fun t => (f t).map (fun w => (t, w))))
    ∧ (convert_to_symbol_api s, v) ∈ (symbols.map convert_to_symbol_api).filterMap
        (fun t => (f t).map (fun w => (t, w))) := by
  have hmemS : (convert_to_symbol_api s, v)
      ∈ (symbols.map convert_to_symbol_api).filterMap
          (fun t => (f t).map (fun w => (t, w))) := by
    apply List.mem_filterMap.mpr
    refine ⟨convert_to_symbol_api s, List.mem_map_of_mem _ hs, ?_⟩
    rw [hv]
    rfl
  have hc1 : ¬((symbols.map convert_to_symbol_api).isEmpty = true) := by
    intro hempty
    cases symbols with
    | nil => exact absurd hs (List.not_mem_nil s)
    | cons a t => simp at hempty
  have hc2 : ¬(((symbols.map convert_to_symbol_api).filterMap
      (fun t => (f t).map (fun w => (t, w)))).isEmpty = true) := by
    intro hempty
    rw [List.isEmpty_iff] at hempty
    rw [hempty] at hmemS
    exact absurd hmemS (List.not_mem_nil _)
  refine ⟨?_, hmemS⟩
  rw [analyze_api_closed_form, if_neg hc1, if_neg hc2]

/-- C7 counterexample: the agents analyze_investment surfaces no hard failure
when not a single symbol of the batch produced valid data: on a one-symbol
batch whose fetch fails, it returns a normal (empty) result instead of
raising, where the claim demands that the failure be surfaced to the caller. -/
theorem c7_counterexample :
    analyze_investment_agents ["AAPL".data] (fun _ => (none : Option ℚ))
      = Except.ok []
    ∧ (∀ s ∈ (["AAPL".data] : List PyStr),
        (fun _ : PyStr => (none : Option ℚ)) s = none) :=
  ⟨rfl, fun _ _ => rfl⟩

/-- C7 (amended): per-symbol failures never abort a batch in either
implementation. The api analyze_investment raises if and only if not a
single symbol of the batch produced valid data, and any symbol whose fetch
and analysis succeed contributes its result to the returned map regardless
of the other symbols. The agents analyze_investment never raises at all: it
returns the collected successes even when every symbol failed, as the
counterexample shows. -/
theorem c7_batch_failure_isolation :
    (∀ (α : Type) (symbols : List PyStr) (f : PyStr → Option α),
      (∃ e, analyze_investment_api symbols f = Except.error e)
        ↔ ∀ s ∈ symbols, f (convert_to_symbol_api s) = none)
    ∧ (∀ (α : Type) (symbols : List PyStr) (f : PyStr → Option α)
        (s : PyStr) (v : α), s ∈ symbols → f (convert_to_symbol_api s) = some v →
        ∃ l, analyze_investment_api symbols f = Except.ok l
          ∧ (convert_to_symbol_api s, v) ∈ l)
    ∧ (∀ (α : Type) (symbols : List PyStr) (f : PyStr → Option α),
        ∃ l, analyze_investment_agents symbols f = Except.ok l) := by
  refine ⟨?_, ?_, ?_⟩
  · intro α symbols f
    constructor
    · rintro ⟨e, he⟩ s hs
      by_contra hne
      obtain ⟨v, hv⟩ := Option.ne_none_iff_exists'.mp hne
      obtain ⟨hok, _⟩ := analyze_api_ok_of_mem symbols f s v hs hv
      rw [hok] at he
      exact Except.noConfusion he
    · intro hall
      rcases symbols with _ | ⟨a, t⟩
      · exact ⟨"no valid symbols", rfl⟩
      · have hS : ((a :: t).map convert_to_symbol_api).filterMap
            (fun x => (f x).map (fun w => (x, w))) = [] := by
          rw [List.filterMap_eq_nil_iff]
          intro x hx
          obtain ⟨s, hs, rfl⟩ := List.mem_map.mp hx
          rw [hall s hs]
          rfl
        refine ⟨"no data for any symbol", ?_⟩
        rw [analyze_api_closed_form, hS, if_neg (by simp)]
        rfl
  · intro α symbols f s v hs hv
    obtain ⟨hok, hmem⟩ := analyze_api_ok_of_mem symbols f s v hs hv
    exact ⟨_, hok, hmem⟩
  · intro α symbols f
    exact ⟨_, rfl⟩

/-- C7 witness: an all-failing batch makes the api analyzer raise; a batch
whose only symbol succeeds yields its entry in the api result; the agents
analyzer returns normally on an all-failing batch. -/
theorem c7_witness :
    (∃ e, analyze_investment_api ["AAPL".data] (fun _ => (none : Option ℚ))
        = Except.error e)
    ∧ (∃ l, analyze_investment_api ["msft".data] (fun _ => (some (1 : ℚ)))
          = Except.ok l ∧ (convert_to_symbol_api "msft".data, (1 : ℚ)) ∈ l)
    ∧ (∃ l, analyze_investment_agents ["AAPL".data] (fun _ => (none : Option ℚ))
          = Except.ok l) :=
  ⟨(c7_batch_failure_isolation.1 ℚ ["AAPL".data] (fun _ => none)).mpr
      (fun _ _ => rfl),
   c7_batch_failure_isolation.2.1 ℚ ["msft".data] (fun _ => some 1) "msft".data 1
      (List.mem_singleton.mpr rfl) rfl,
   c7_batch_failure_isolation.2.2 ℚ ["AAPL".data] (fun _ => none)⟩
